import Mathlib

/-!
Verification development for `sysadmin/apache_request_access_grant.py`,
a Python 2 script that tails an Apache access log for requests to a
fixed URL, extracts the requesting addresses, and (after operator
confirmation) appends `Allow from <ip>` directives inside a delimited
region of the Apache configuration file.

The script is embedded shallowly: its regular expressions are modelled
by a small backtracking matcher over `List Char` (faithful to Python's
leftmost-search, greedy/lazy backtracking semantics for the specific
patterns used), its line-scanning loops become folds over line lists,
and the final file write becomes a pure function from the original
line list to the new file content.
-/

namespace ApacheGrant

/-- Python 2 `\s` for byte strings: space, tab, newline, carriage
return, vertical tab, form feed. -/
def isPySpace (c : Char) : Bool :=
  c = ' ' || c = '\t' || c = '\n' || c = '\r' || c = '\x0b' || c = '\x0c'

/-- Python 2 `\d`: an ASCII decimal digit. -/
def isPyDigit (c : Char) : Bool :=
  '0' ≤ c && c ≤ '9'

/-- ASCII lower-casing, as performed by case-insensitive (`re.I`)
matching on Python 2 byte strings. -/
def lowerChar (c : Char) : Char :=
  if 'A' ≤ c && c ≤ 'Z' then Char.ofNat (c.toNat + 32) else c

/-- Items of the regular expressions occurring in the script.  Every
repetition in those patterns repeats a single-character class, which is
what `rep` provides; `hi = none` means an unbounded repetition. -/
inductive RItem where
  | lit (c : Char)
  | cls (p : Char → Bool)
  | rep (p : Char → Bool) (lo : Nat) (hi : Option Nat) (greedy : Bool)
  | group (idx : Nat) (sub : List RItem)

/-- Captured groups: group index paired with the captured characters. -/
abbrev Captures := List (Nat × List Char)

/-- Try a list of repetition counts in order, returning the first
success; this realises the backtracking order of a greedy (descending
counts) or lazy (ascending counts) repetition. -/
def firstSome {α : Type} : List Nat → (Nat → Option α) → Option α
  | [], _ => none
  | n :: ns, f => match f n with
    | some r => some r
    | none => firstSome ns f

/-- Backtracking matcher in continuation style.  `matchSeq fuel items
cs caps k` matches `items` against a prefix of `cs`, extending the
captures `caps`, and calls `k` on the remaining input; the first
overall success (in Python's backtracking order) wins.  The fuel only
bounds the recursion depth, which is at most the total number of items
of the pattern. -/
def matchSeq : Nat → List RItem → List Char → Captures →
    (List Char → Captures → Option Captures) → Option Captures
  | 0, _, _, _, _ => none
  | Nat.succ fuel, items, cs, caps, k =>
    match items with
    | [] => k cs caps
    | RItem.lit c :: rest =>
      match cs with
      | [] => none
      | c2 :: cs2 => if c2 = c then matchSeq fuel rest cs2 caps k else none
    | RItem.cls p :: rest =>
      match cs with
      | [] => none
      | c2 :: cs2 => if p c2 then matchSeq fuel rest cs2 caps k else none
    | RItem.rep p lo hi greedy :: rest =>
      let m := (cs.takeWhile p).length
      let top := match hi with
        | none => m
        | some b => min b m
      if lo ≤ top then
        let ks := (List.range (top + 1 - lo)).map
          (fun j => if greedy then top - j else lo + j)
        firstSome ks (fun n => matchSeq fuel rest (cs.drop n) caps k)
      else none
    | RItem.group idx sub :: rest =>
      matchSeq fuel sub cs caps (fun cs2 caps2 =>
        matchSeq fuel rest cs2
          ((idx, cs.take (cs.length - cs2.length)) :: caps2) k)

/-- Attempt a match of the whole item list starting at the current
position (like an anchored attempt of `re.search` at one offset). -/
def matchHere (items : List RItem) (cs : List Char) : Option Captures :=
  matchSeq 1000 items cs [] (fun _ caps => some caps)

/-- `re.search`: try the pattern at every start offset, leftmost
success first. -/
def reSearch (items : List RItem) : List Char → Option Captures
  | [] => matchHere items []
  | c :: cs =>
    match matchHere items (c :: cs) with
    | some caps => some caps
    | none => reSearch items cs

/-- `match.group(i)`: the text captured by group `i` (groups in the
script's patterns always participate in a successful match). -/
def capStr (caps : Captures) (i : Nat) : String :=
  match caps.find? (fun p => p.1 = i) with
  | some p => String.mk p.2
  | none => ""

/-- `match.groups()`: the tuple of all `n` captured group strings. -/
def groupsTuple (n : Nat) (caps : Captures) : List String :=
  (List.range n).map (fun j => capStr caps (j + 1))

/-- Python 2 values involved in the script's `groups() > 1` and
`groups() > 12` comparisons: a tuple of captured strings, or an int. -/
inductive PyVal where
  | pyInt (n : Int)
  | pyTuple (elems : List String)

/-- The type name CPython 2 uses when ordering values of different
built-in types. -/
def pyTypeName : PyVal → String
  | .pyInt _ => "int"
  | .pyTuple _ => "tuple"

/-- Python 2 string ordering: lexicographic by byte value. -/
def charListLt : List Char → List Char → Bool
  | [], [] => false
  | [], _ :: _ => true
  | _ :: _, [] => false
  | a :: as, b :: bs =>
    if a.val < b.val then true
    else if b.val < a.val then false
    else charListLt as bs

/-- Python 2 string `<`. -/
def pyStrLt (a b : String) : Bool :=
  charListLt a.toList b.toList

/-- Python 2 tuple-of-strings `<`: lexicographic. -/
def pyTupleLt : List String → List String → Bool
  | [], [] => false
  | [], _ :: _ => true
  | _ :: _, [] => false
  | a :: as, b :: bs =>
    if pyStrLt a b then true
    else if pyStrLt b a then false
    else pyTupleLt as bs

/-- Python 2 `>` on the values above.  Values of the same type compare
by value; values of different built-in types compare by type name
(CPython 2 additionally sorts numbers before everything else, which
gives the same verdict for `int` versus `tuple`). -/
def pyGt (a b : PyVal) : Bool :=
  match a, b with
  | .pyInt x, .pyInt y => decide (y < x)
  | .pyTuple xs, .pyTuple ys => pyTupleLt ys xs
  | x, y => pyStrLt (pyTypeName y) (pyTypeName x)

/-- Does `pat` match at the start of `hay`? -/
def matchesAt : List Char → List Char → Bool
  | [], _ => true
  | _ :: _, [] => false
  | p :: ps, h :: hs => p = h && matchesAt ps hs

/-- Does `hay` contain `pat` as a contiguous substring (at any offset,
including the empty offset at the end)? -/
def hasSubstr : List Char → List Char → Bool
  | [], pat => matchesAt pat []
  | c :: t, pat => matchesAt pat (c :: t) || hasSubstr t pat

/-- `re.search(marker, line, re.I)` where `marker` contains no regex
metacharacters that Python treats specially (the braces in the section
markers do not form quantifiers, so they match literally): a
case-insensitive substring test. -/
def matchesMarkerCI (marker line : String) : Bool :=
  hasSubstr (line.toList.map lowerChar) (marker.toList.map lowerChar)

/-- The `beginScriptSection` marker of the script (the trailing
characters are three opening curly braces). -/
def beginScriptSection : String := "# begin auto-script section \x7b\x7b\x7b"

/-- The `endScriptSection` marker of the script (the trailing
characters are three closing curly braces). -/
def endScriptSection : String := "# end auto-script section \x7d\x7d\x7d"

/-- `re.search(beginScriptSection, line, re.I)` succeeded. -/
def matchesBegin (line : String) : Bool :=
  matchesMarkerCI beginScriptSection line

/-- `re.search(endScriptSection, line, re.I)` succeeded. -/
def matchesEnd (line : String) : Bool :=
  matchesMarkerCI endScriptSection line

/-- One octet of `ipRegex`: `[0-9]{1,3}`. -/
def ipOctet : RItem := RItem.rep isPyDigit 1 (some 3) true

/-- `ipRegex = "([0-9]{1,3}\.[0-9]{1,3}\.[0-9]{1,3}\.[0-9]{1,3})"` as
group 1. -/
def ipGroup : RItem :=
  RItem.group 1 [ipOctet, RItem.lit '.', ipOctet, RItem.lit '.',
    ipOctet, RItem.lit '.', ipOctet]

/-- The authorisation-line pattern
`[Aa][lL][lL][oO][wW] [fF][rR][oO][mM] ` followed by `ipRegex`. -/
def allowFromItems : List RItem :=
  [RItem.cls (fun c => c = 'A' || c = 'a'),
   RItem.cls (fun c => c = 'l' || c = 'L'),
   RItem.cls (fun c => c = 'l' || c = 'L'),
   RItem.cls (fun c => c = 'o' || c = 'O'),
   RItem.cls (fun c => c = 'w' || c = 'W'),
   RItem.lit ' ',
   RItem.cls (fun c => c = 'f' || c = 'F'),
   RItem.cls (fun c => c = 'r' || c = 'R'),
   RItem.cls (fun c => c = 'o' || c = 'O'),
   RItem.cls (fun c => c = 'm' || c = 'M'),
   RItem.lit ' ',
   ipGroup]

/-- `re.search` of the authorisation-line pattern on one config line. -/
def allowSearch (line : String) : Option Captures :=
  reSearch allowFromItems line.toList

/-- The address that an `Allow from` line contributes:
`match.group(1)` of a successful search. -/
def allowIpOf (line : String) : Option String :=
  (allowSearch line).map (fun caps => capStr caps 1)

/-- `accessLogRegex`, group by group.  `\S+` is a greedy repetition of
non-whitespace, `[^x]+` a greedy repetition of the complemented class,
`.*?` a lazy repetition of any character except newline, `[^"]*` a
greedy, possibly empty repetition. -/
def accessLogItems : List RItem :=
  [RItem.group 1 [RItem.rep (fun c => !isPySpace c) 1 none true],
   RItem.lit ' ',
   RItem.group 2 [RItem.rep (fun c => !isPySpace c) 1 none true],
   RItem.lit ' ',
   RItem.group 3 [RItem.rep (fun c => !isPySpace c) 1 none true],
   RItem.lit ' ',
   RItem.lit '[',
   RItem.group 4 [RItem.rep (fun c => c ≠ ':') 1 none true],
   RItem.lit ':',
   RItem.group 5 [RItem.rep isPyDigit 1 none true, RItem.lit ':',
     RItem.rep isPyDigit 1 none true, RItem.lit ':',
     RItem.rep isPyDigit 1 none true],
   RItem.lit ' ',
   RItem.group 6 [RItem.rep (fun c => c ≠ ']') 1 none true],
   RItem.lit ']',
   RItem.lit ' ',
   RItem.lit '"',
   RItem.group 7 [RItem.rep (fun c => !isPySpace c) 1 none true],
   RItem.lit ' ',
   RItem.group 8 [RItem.rep (fun c => c ≠ '\n') 0 none false],
   RItem.lit ' ',
   RItem.group 9 [RItem.rep (fun c => !isPySpace c) 1 none true],
   RItem.lit '"',
   RItem.lit ' ',
   RItem.group 10 [RItem.rep (fun c => !isPySpace c) 1 none true],
   RItem.lit ' ',
   RItem.group 11 [RItem.rep (fun c => !isPySpace c) 1 none true],
   RItem.lit ' ',
   RItem.lit '"',
   RItem.group 12 [RItem.rep (fun c => c ≠ '"') 0 none true],
   RItem.lit '"',
   RItem.lit ' ',
   RItem.lit '"',
   RItem.group 13 [RItem.rep (fun c => c ≠ '"') 0 none true],
   RItem.lit '"']

/-- The fields of the script's `IpRequest` record that the parsing
loop actually fills in (`ip`, `userAgent`, `date`, `time`,
`timezone`); the remaining class-level defaults are never read. -/
structure IpRequest where
  ip : String
  userAgent : String
  date : String
  time : String
  timezone : String
deriving DecidableEq

/-- One access-log line parsed into an `IpRequest`, or `none` when
`re.search(accessLogRegex, line)` fails (the line is then silently
skipped). -/
def parseAccess (line : String) : Option IpRequest :=
  (reSearch accessLogItems line.toList).map
    (fun caps =>
      ⟨capStr caps 1, capStr caps 13, capStr caps 4, capStr caps 5,
        capStr caps 6⟩)

/-- `line.replace('\n', '')`. -/
def stripNewlines (s : String) : String :=
  String.mk (s.toList.filter (fun c => c ≠ '\n'))

/-- The mutable state of the config-scanning loop: the `safety`
marker counter, the `insideScriptSection` flag, the stripped region
lines collected in `lines`, and the `authorizedIps` list. -/
structure ScanState where
  safety : Nat
  insideScriptSection : Bool
  regionLines : List String
  authorizedIps : List String
deriving DecidableEq

/-- One iteration of the config-scanning loop (`for line in f`).  A
line matching the begin marker bumps `safety`, sets the flag and
`continue`s; a line matching the end marker bumps `safety` and clears
the flag before the inside check; inside the region the line is
collected and tested against the `Allow from` pattern, adding
`group(1)` to `authorizedIps` unless already present.  The
`ip.groups() > 1` comparison of the source is kept verbatim, modelled
by `pyGt` on a one-element tuple. -/
def scanLine (st : ScanState) (line : String) : ScanState :=
  if matchesBegin line then
    { st with safety := st.safety + 1, insideScriptSection := true }
  else
    let st1 :=
      if matchesEnd line then
        { st with safety := st.safety + 1, insideScriptSection := false }
      else st
    if st1.insideScriptSection then
      let st2 := { st1 with
        regionLines := st1.regionLines ++ [stripNewlines line] }
      match allowSearch line with
      | none => st2
      | some caps =>
        if pyGt (PyVal.pyTuple (groupsTuple 1 caps)) (PyVal.pyInt 1) then
          if capStr caps 1 ∈ st2.authorizedIps then st2
          else { st2 with
            authorizedIps := st2.authorizedIps ++ [capStr caps 1] }
        else st2
    else st1

/-- Initial loop state: `safety = 0`, outside the section, empty
`lines` and `authorizedIps`. -/
def initState : ScanState := ⟨0, false, [], []⟩

/-- The whole config-scanning loop over the file's lines. -/
def parseConfig (fileLines : List String) : ScanState :=
  fileLines.foldl scanLine initState

/-- `scanLine` with the vacuous `ip.groups() > 1` comparison removed. -/
def scanLineNoGuard (st : ScanState) (line : String) : ScanState :=
  if matchesBegin line then
    { st with safety := st.safety + 1, insideScriptSection := true }
  else
    let st1 :=
      if matchesEnd line then
        { st with safety := st.safety + 1, insideScriptSection := false }
      else st
    if st1.insideScriptSection then
      let st2 := { st1 with
        regionLines := st1.regionLines ++ [stripNewlines line] }
      match allowSearch line with
      | none => st2
      | some caps =>
        if capStr caps 1 ∈ st2.authorizedIps then st2
        else { st2 with
          authorizedIps := st2.authorizedIps ++ [capStr caps 1] }
    else st1

/-- `parseConfig` built from the guard-free step. -/
def parseConfigNoGuard (fileLines : List String) : ScanState :=
  fileLines.foldl scanLineNoGuard initState

/-- One iteration of the access-log loop: parse the line, and unless
the address was already seen (`acc.group(1) in requestingIps`, where
`requestingIps` holds exactly the addresses of the entries collected
so far) append a new `IpRequest`.  The `acc.groups() > 12` comparison
of the source is kept verbatim. -/
def processLogStep (acc : List IpRequest) (line : String) :
    List IpRequest :=
  match reSearch accessLogItems line.toList with
  | none => acc
  | some caps =>
    if pyGt (PyVal.pyTuple (groupsTuple 13 caps)) (PyVal.pyInt 12)
        && !(acc.any (fun e => e.ip == capStr caps 1)) then
      acc ++ [⟨capStr caps 1, capStr caps 13, capStr caps 4,
        capStr caps 5, capStr caps 6⟩]
    else acc

/-- The whole access-log loop: `requestEntries` after reading all
recent request lines. -/
def processLog (logLines : List String) : List IpRequest :=
  logLines.foldl processLogStep []

/-- `processLogStep` with the vacuous `acc.groups() > 12` comparison
removed. -/
def processLogStepNoGuard (acc : List IpRequest) (line : String) :
    List IpRequest :=
  match reSearch accessLogItems line.toList with
  | none => acc
  | some caps =>
    if !(acc.any (fun e => e.ip == capStr caps 1)) then
      acc ++ [⟨capStr caps 1, capStr caps 13, capStr caps 4,
        capStr caps 5, capStr caps 6⟩]
    else acc

/-- `processLog` built from the guard-free step. -/
def processLogNoGuard (logLines : List String) : List IpRequest :=
  logLines.foldl processLogStepNoGuard []

/-- The filtering list comprehension
`[x for x in requestEntries if not (x.ip in authorizedIps)]`. -/
def pendingEntries (logLines : List String)
    (authorizedIps : List String) : List IpRequest :=
  (processLog logLines).filter (fun e => !(decide (e.ip ∈ authorizedIps)))

/-- The insertion-point `while True` loop, unrolled from position `i`
over the remaining lines: return the index of the first line matching
the end marker, or `none` when the loop runs past the end of the list
(an `IndexError` in the source). -/
def findEndFrom : List String → Nat → Option Nat
  | [], _ => none
  | l :: ls, i => if matchesEnd l then some i else findEndFrom ls (i + 1)

/-- The insertion-point search of the write step: `insertIndex`
starts at `1`, so only lines from index 1 onwards are examined. -/
def findInsertIndex (configLines : List String) : Option Nat :=
  findEndFrom (configLines.drop 1) 1

/-- A single-quote character, used in the comment line. -/
def squote : String := String.singleton '\''

/-- The comment line written above each new `Allow` directive:
address, current human-readable timestamp, user agent. -/
def newLineComment (now : String) (e : IpRequest) : String :=
  "# allowing ip " ++ squote ++ e.ip ++ squote ++ " on " ++ now ++
    ", request via " ++ e.userAgent ++ "\n"

/-- The new `Allow from <ip>` directive line. -/
def newAllowLine (e : IpRequest) : String :=
  "Allow from " ++ e.ip ++ "\n"

/-- The `newContent` accumulation loop: for each entry append a
newline, the comment line and the `Allow` line to the string. -/
def newContentStr (now : String) (entries : List IpRequest) : String :=
  entries.foldl
    (fun acc e => acc ++ ("\n" ++ newLineComment now e ++ newAllowLine e))
    ""

/-- Python's `list.insert(i, x)`: insert before position `i`
(appending when `i` is past the end). -/
def pyInsert (l : List String) (i : Nat) (s : String) : List String :=
  l.take i ++ s :: l.drop i

/-- `"".join(lines)`. -/
def joinAll (l : List String) : String :=
  l.foldl (fun a b => a ++ b) ""

/-- The content written back to the config file:
`configLines.insert(insertIndex, newContent)` followed by
`"".join(configLines)` (the lines of `configLines` carry their
original trailing newlines). -/
def writtenConfig (configLines : List String) (i : Nat) (now : String)
    (entries : List IpRequest) : String :=
  joinAll (pyInsert configLines i (newContentStr now entries))

/-- The operator-confirmation test
`(cont == 'y') or (cont == 'Y')`. -/
def confirmAccepted (cont : String) : Bool :=
  cont == "y" || cont == "Y"

/-- The observable outcome of one run, after the backup step: an
early exit (malformed config, no new requests, operator declined), a
crash of the insertion-point search (`IndexError`), or a successful
write of the new config content. -/
inductive RunOutcome where
  | malformedConfig
  | noNewRequests
  | operatorDeclined
  | insertSearchError
  | written (content : String)
deriving DecidableEq

/-- The script's main sequence after the backup step, as a pure
function of the config lines, the recent request log lines (the
output of the `tail | grep` collaborator), the operator's answer and
the current timestamp: scan the config, check `safety == 2`, parse
and filter the log (the length test is on `requestingIps`, which
holds exactly the addresses of the filtered entries), prompt, locate
the insertion point, and build the written content. -/
def run (configLines logLines : List String) (answer now : String) :
    RunOutcome :=
  let st := parseConfig configLines
  if st.safety = 2 then
    let entries := pendingEntries logLines st.authorizedIps
    if 0 < entries.length then
      if confirmAccepted answer then
        match findInsertIndex configLines with
        | some i =>
          RunOutcome.written (writtenConfig configLines i now entries)
        | none => RunOutcome.insertSearchError
      else RunOutcome.operatorDeclined
    else RunOutcome.noNewRequests
  else RunOutcome.malformedConfig

/-- The config file's content after a run: rewritten on a successful
write, untouched on every other outcome. -/
def finalConfig (original : String) : RunOutcome → String
  | RunOutcome.written s => s
  | _ => original

/-- Add one optional address to the authorised list, skipping
duplicates: the effect of a single inside-the-region line on
`authorizedIps`. -/
def pushIp (auth : List String) : Option String → List String
  | none => auth
  | some ip2 => if ip2 ∈ auth then auth else auth ++ [ip2]

/-- The entry derived from the first log line whose parse carries the
given address. -/
def firstEntryWithIp (logLines : List String) (ip : String) :
    Option IpRequest :=
  logLines.findSome? (fun l =>
    match parseAccess l with
    | some en => if en.ip = ip then some en else none
    | none => none)

/-- The access-log line of the spec's parser example. -/
def logLine1234 : String :=
  "1.2.3.4 - - [10/Jul/2015:10:00:00 +0000] \"GET /request_access HTTP/1.1\" 200 123 \"-\" \"TestAgent/1.0\""

/-- A second request from the same address with a different user
agent and time. -/
def logLine1234b : String :=
  "1.2.3.4 - - [11/Jul/2015:11:11:11 +0000] \"GET /request_access HTTP/1.1\" 200 99 \"-\" \"OtherAgent/2.0\""

/-- The access-log line of the spec's end-to-end example, requesting
from 9.9.9.9. -/
def logLine9 : String :=
  "9.9.9.9 - - [10/Jul/2015:10:00:00 +0000] \"GET /request_access HTTP/1.1\" 200 123 \"-\" \"TestAgent/1.0\""

/-- The entry `logLine1234` parses to. -/
def entry1234 : IpRequest :=
  ⟨"1.2.3.4", "TestAgent/1.0", "10/Jul/2015", "10:00:00", "+0000"⟩

/-- The entry `logLine9` parses to. -/
def entry9 : IpRequest :=
  ⟨"9.9.9.9", "TestAgent/1.0", "10/Jul/2015", "10:00:00", "+0000"⟩

/-- A fixed human-readable timestamp standing in for
`datetime.datetime.now().ctime()`. -/
def nowStamp : String := "Mon Jul 20 10:00:00 2015"

/-- A four-line config file with an empty managed region, lines kept
with their trailing newlines as `readlines` returns them. -/
def cfgLine0 : String := "<VirtualHost>\n"

/-- Begin-marker line of the example config. -/
def cfgLine1 : String := beginScriptSection ++ "\n"

/-- End-marker line of the example config. -/
def cfgLine2 : String := endScriptSection ++ "\n"

/-- Closing line of the example config. -/
def cfgLine3 : String := "</VirtualHost>\n"

/-- The example config file of the end-to-end scenario. -/
def cfgC2 : List String := [cfgLine0, cfgLine1, cfgLine2, cfgLine3]

/-- A config file with two begin markers and no end marker. -/
def badConfigC1 : List String := [beginScriptSection, beginScriptSection]

/-- A config file whose only end marker sits on line 0. -/
def cfgEndFirst : List String := [endScriptSection, "Deny from all"]

/-- The comment line the write step produces for `entry9` at
`nowStamp` (without its trailing newline). -/
def commentLine9 : String :=
  "# allowing ip " ++ squote ++ "9.9.9.9" ++ squote ++
    " on Mon Jul 20 10:00:00 2015, request via TestAgent/1.0"

/-- The `Allow` line the write step produces for `entry9` (without
its trailing newline). -/
def allowLine9 : String := "Allow from 9.9.9.9"

/-- In Python 2 a tuple compares greater than an int, whatever the
values: mixed-type comparison never raises and orders `int` below
`tuple`.  Hence the script's `groups() > n` tests are always true. -/
theorem pyGt_tuple_int (elems : List String) (n : Int) :
    pyGt (PyVal.pyTuple elems) (PyVal.pyInt n) = true := rfl

/-- A line matching the begin marker: bump `safety`, set the flag,
skip the rest of the body. -/
theorem scanLine_begin (st : ScanState) (line : String)
    (h : matchesBegin line = true) :
    scanLine st line =
      { st with safety := st.safety + 1, insideScriptSection := true } := by
  simp [scanLine, h]

/-- A line matching only the end marker: bump `safety`, clear the
flag; the line is not collected. -/
theorem scanLine_end (st : ScanState) (line : String)
    (h1 : matchesBegin line = false) (h2 : matchesEnd line = true) :
    scanLine st line =
      { st with safety := st.safety + 1, insideScriptSection := false } := by
  simp [scanLine, h1, h2]

/-- A marker-free line inside the section: collect it and add its
`Allow from` address (if any) to the authorised list. -/
theorem scanLine_inside (st : ScanState) (line : String)
    (h1 : matchesBegin line = false) (h2 : matchesEnd line = false)
    (h3 : st.insideScriptSection = true) :
    scanLine st line =
      { st with
        regionLines := st.regionLines ++ [stripNewlines line],
        authorizedIps := pushIp st.authorizedIps (allowIpOf line) } := by
  cases hs : allowSearch line with
  | none => simp [scanLine, h1, h2, h3, hs, allowIpOf, pushIp]
  | some caps =>
    by_cases hmem : capStr caps 1 ∈ st.authorizedIps <;>
      simp [scanLine, h1, h2, h3, hs, allowIpOf, pushIp, pyGt_tuple_int, hmem]

/-- A marker-free line outside the section leaves the state alone. -/
theorem scanLine_outside (st : ScanState) (line : String)
    (h1 : matchesBegin line = false) (h2 : matchesEnd line = false)
    (h3 : st.insideScriptSection = false) :
    scanLine st line = st := by
  simp [scanLine, h1, h2, h3]

/-- Scanning marker-free lines while outside the section changes
nothing. -/
theorem foldl_scan_outside (ls : List String) (st : ScanState)
    (hin : st.insideScriptSection = false)
    (h : ∀ l ∈ ls, matchesBegin l = false ∧ matchesEnd l = false) :
    ls.foldl scanLine st = st := by
  induction ls with
  | nil => rfl
  | cons l t ih =>
    have hl := h l (List.mem_cons_self l t)
    rw [List.foldl_cons, scanLine_outside st l hl.1 hl.2 hin]
    exact ih (fun x hx => h x (List.mem_cons_of_mem l hx))

/-- Scanning marker-free lines while inside the section collects them
and folds their `Allow from` addresses into the authorised list. -/
theorem foldl_scan_inside (ls : List String) (st : ScanState)
    (hin : st.insideScriptSection = true)
    (h : ∀ l ∈ ls, matchesBegin l = false ∧ matchesEnd l = false) :
    ls.foldl scanLine st =
      { st with
        regionLines := st.regionLines ++ ls.map stripNewlines,
        authorizedIps :=
          ls.foldl (fun a l => pushIp a (allowIpOf l)) st.authorizedIps } := by
  induction ls generalizing st with
  | nil => cases st; simp
  | cons l t ih =>
    have hl := h l (List.mem_cons_self l t)
    rw [List.foldl_cons, scanLine_inside st l hl.1 hl.2 hin]
    rw [ih { st with
        regionLines := st.regionLines ++ [stripNewlines l],
        authorizedIps := pushIp st.authorizedIps (allowIpOf l) }
      hin (fun x hx => h x (List.mem_cons_of_mem l hx))]
    simp

/-- Membership after pushing one optional address. -/
theorem mem_pushIp (auth : List String) (o : Option String) (a : String) :
    a ∈ pushIp auth o ↔ a ∈ auth ∨ o = some a := by
  cases o with
  | none => simp [pushIp]
  | some ip2 =>
    by_cases hmem : ip2 ∈ auth
    · simp only [pushIp, if_pos hmem, Option.some.injEq]
      constructor
      · exact fun hx => Or.inl hx
      · rintro (hx | rfl)
        · exact hx
        · exact hmem
    · simp only [pushIp, if_neg hmem, List.mem_append, List.mem_singleton,
        Option.some.injEq]
      constructor
      · rintro (hx | rfl)
        · exact Or.inl hx
        · exact Or.inr rfl
      · rintro (hx | rfl)
        · exact Or.inl hx
        · exact Or.inr rfl

/-- Membership in the folded authorised list: already present, or
contributed by some line's `Allow from` match. -/
theorem mem_foldl_pushIp (ls : List String) (auth : List String)
    (a : String) :
    a ∈ ls.foldl (fun acc l => pushIp acc (allowIpOf l)) auth ↔
      a ∈ auth ∨ a ∈ ls.filterMap allowIpOf := by
  induction ls generalizing auth with
  | nil => simp
  | cons l t ih =>
    rw [List.foldl_cons, ih]
    cases hl : allowIpOf l with
    | none => simp [mem_pushIp, hl]
    | some ip2 =>
      simp only [mem_pushIp, hl, List.filterMap_cons, Option.some.injEq,
        List.mem_cons]
      constructor
      · rintro ((hx | rfl) | hx)
        · exact Or.inl hx
        · exact Or.inr (Or.inl rfl)
        · exact Or.inr (Or.inr hx)
      · rintro (hx | (rfl | hx))
        · exact Or.inl (Or.inl hx)
        · exact Or.inl (Or.inr rfl)
        · exact Or.inr hx

/-- The guarded and guard-free config-scan steps agree. -/
theorem scanLine_eq_noGuard (st : ScanState) (line : String) :
    scanLine st line = scanLineNoGuard st line := by
  cases hs : allowSearch line <;>
    simp [scanLine, scanLineNoGuard, hs, pyGt_tuple_int]

/-- The guarded and guard-free access-log steps agree. -/
theorem processLogStep_eq_noGuard (acc : List IpRequest) (line : String) :
    processLogStep acc line = processLogStepNoGuard acc line := by
  cases hs : reSearch accessLogItems line.toList <;>
    simp [processLogStep, processLogStepNoGuard, hs, pyGt_tuple_int]

/-- The access-log step, stated through `parseAccess`. -/
theorem processLogStep_eq (acc : List IpRequest) (line : String) :
    processLogStep acc line =
      match parseAccess line with
      | none => acc
      | some en =>
        if acc.any (fun x => x.ip == en.ip) then acc else acc ++ [en] := by
  unfold processLogStep parseAccess
  cases hs : reSearch accessLogItems line.toList with
  | none => rfl
  | some caps =>
    by_cases hany : acc.any (fun x => x.ip == capStr caps 1) <;>
      simp [pyGt_tuple_int, hany]

/-- The access-log step on an unparseable line. -/
theorem processLogStep_none (acc : List IpRequest) (line : String)
    (h : parseAccess line = none) :
    processLogStep acc line = acc := by
  rw [processLogStep_eq, h]

/-- The access-log step on a parseable line: append the entry unless
its address is already accumulated. -/
theorem processLogStep_some (acc : List IpRequest) (line : String)
    (en : IpRequest) (h : parseAccess line = some en) :
    processLogStep acc line =
      if acc.any (fun x => x.ip == en.ip) then acc else acc ++ [en] := by
  rw [processLogStep_eq, h]

/-- Unfolding `firstEntryWithIp` one log line at a time. -/
theorem firstEntryWithIp_cons (l : String) (t : List String) (ip : String) :
    firstEntryWithIp (l :: t) ip =
      match parseAccess l with
      | some en => if en.ip = ip then some en else firstEntryWithIp t ip
      | none => firstEntryWithIp t ip := by
  unfold firstEntryWithIp
  rw [List.findSome?_cons]
  cases parseAccess l with
  | none => rfl
  | some en => by_cases h : en.ip = ip <;> simp [h]

/-- C1: the config-parsing scan does not enforce one begin marker and
one end marker; it only checks that the shared `safety` counter
reaches exactly 2, so a file with two begin markers and zero end
markers passes the check (and the later insertion-point search then
runs past the end of the line list).  This contradicts the script's
own error message, which demands exactly one begin and one end
section marker. -/
theorem c1_safety_counter_conflated :
    (parseConfig badConfigC1).safety = 2 ∧
    List.countP (fun l => matchesEnd l) badConfigC1 = 0 ∧
    List.countP (fun l => matchesBegin l) badConfigC1 = 2 ∧
    run badConfigC1 [logLine9] "y" nowStamp =
      RunOutcome.insertSearchError := by
  decide

/-- C4: the log-entry parser turns the example line into exactly one
entry with address `1.2.3.4` and user agent `TestAgent/1.0`, and any
line the access-log regex does not match contributes no entry (it is
silently skipped by the loop). -/
theorem c4_parse_example_line :
    processLog [logLine1234] = [entry1234] ∧
    entry1234.ip = "1.2.3.4" ∧
    entry1234.userAgent = "TestAgent/1.0" ∧
    ∀ line rest, parseAccess line = none →
      processLog (line :: rest) = processLog rest := by
  refine ⟨by decide, by decide, by decide, ?_⟩
  intro line rest h
  have hre : reSearch accessLogItems line.toList = none := by
    unfold parseAccess at h
    exact Option.map_eq_none'.mp h
  unfold processLog
  rw [List.foldl_cons]
  have hstep : processLogStep [] line = [] := by
    unfold processLogStep
    rw [hre]
  rw [hstep]

/-- C4 witness: a malformed line is skipped, leaving the parse of the
remaining lines unchanged. -/
theorem c4_parse_example_line_witness :
    parseAccess "not a log line" = none ∧
    processLog ["not a log line", logLine1234] = processLog [logLine1234] :=
  ⟨by decide,
    c4_parse_example_line.2.2.2 "not a log line" [logLine1234] (by decide)⟩

/-- C5: under Python 2 semantics a tuple compares greater than an int
regardless of the values, so the `ip.groups() > 1` and
`acc.groups() > 12` guards are always true and both parsing loops
behave exactly as their guard-free counterparts: the result depends
only on whether the regex matched. -/
theorem c5_group_guards_vacuous :
    (∀ (elems : List String) (n : Int),
        pyGt (PyVal.pyTuple elems) (PyVal.pyInt n) = true) ∧
    (∀ fileLines : List String,
        parseConfig fileLines = parseConfigNoGuard fileLines) ∧
    (∀ logLines : List String,
        processLog logLines = processLogNoGuard logLines) := by
  refine ⟨fun elems n => pyGt_tuple_int elems n, ?_, ?_⟩
  · intro fileLines
    have hfun : scanLine = scanLineNoGuard :=
      funext fun st => funext fun line => scanLine_eq_noGuard st line
    unfold parseConfig parseConfigNoGuard
    rw [hfun]
  · intro logLines
    have hfun : processLogStep = processLogStepNoGuard :=
      funext fun acc => funext fun line => processLogStep_eq_noGuard acc line
    unfold processLog processLogNoGuard
    rw [hfun]

/-- The insertion-point loop finds nothing when no examined line
matches the end marker. -/
theorem findEndFrom_eq_none (ls : List String) :
    ∀ i, (∀ l ∈ ls, matchesEnd l = false) → findEndFrom ls i = none := by
  induction ls with
  | nil => intro i _; rfl
  | cons l t ih =>
    intro i h
    have hl := h l (List.mem_cons_self l t)
    simp only [findEndFrom, hl, Bool.false_eq_true, if_false]
    exact ih (i + 1) (fun x hx => h x (List.mem_cons_of_mem l hx))

/-- When the insertion-point loop returns an index, that index is at
or after the start position and names a line matching the end
marker. -/
theorem findEndFrom_eq_some (ls : List String) :
    ∀ i j, findEndFrom ls i = some j →
      i ≤ j ∧ ∃ l, ls[j - i]? = some l ∧ matchesEnd l = true := by
  induction ls with
  | nil => intro i j h; exact absurd h (by simp [findEndFrom])
  | cons l t ih =>
    intro i j h
    by_cases hl : matchesEnd l
    · simp only [findEndFrom, hl, if_true, Option.some.injEq] at h
      subst h
      exact ⟨Nat.le_refl i, l, by simp, hl⟩
    · simp only [findEndFrom, hl, Bool.false_eq_true, if_false] at h
      obtain ⟨hij, l2, hget, hend⟩ := ih (i + 1) j h
      refine ⟨Nat.le_of_succ_le hij, l2, ?_, hend⟩
      have hidx : j - i = (j - (i + 1)) + 1 := by omega
      rw [hidx]
      simpa using hget

/-- C10: the write step's insertion-point search starts at index 1
and never looks at index 0; if no line at index ≥ 1 matches the end
marker it indexes past the end of the list (modelled as `none`, an
`IndexError` in the source) instead of producing an insertion index,
and whenever it does return an index, that index is ≥ 1 and its line
matches the end marker. -/
theorem c10_insert_search_unsafe :
    (∀ configLines : List String,
        (∀ l ∈ configLines.drop 1, matchesEnd l = false) →
        findInsertIndex configLines = none) ∧
    (∀ (configLines : List String) (i : Nat),
        findInsertIndex configLines = some i →
        1 ≤ i ∧ ∃ l, configLines[i]? = some l ∧ matchesEnd l = true) := by
  constructor
  · intro configLines h
    exact findEndFrom_eq_none (configLines.drop 1) 1 h
  · intro configLines i h
    obtain ⟨h1i, l, hget, hend⟩ :=
      findEndFrom_eq_some (configLines.drop 1) 1 i h
    refine ⟨h1i, l, ?_, hend⟩
    rw [List.getElem?_drop] at hget
    have : 1 + (i - 1) = i := by omega
    rwa [this] at hget

/-- C10 witness: an end marker on line 0 only is never seen, so the
search runs past the end of the list. -/
theorem c10_insert_search_unsafe_witness :
    (∀ l ∈ cfgEndFirst.drop 1, matchesEnd l = false) ∧
    findInsertIndex cfgEndFirst = none :=
  ⟨by decide, c10_insert_search_unsafe.1 cfgEndFirst (by decide)⟩

/-- C3: on a config file with a valid managed region (one begin
marker, then one end marker, no other marker lines), the authorised
address list collects exactly the addresses of the lines strictly
between the markers that match the case-insensitive
`Allow from <address>` pattern; lines outside the region and
non-matching lines inside it contribute nothing. -/
theorem c3_extract_authorized (pre mid post : List String)
    (b e : String)
    (hpre : ∀ l ∈ pre, matchesBegin l = false ∧ matchesEnd l = false)
    (hmid : ∀ l ∈ mid, matchesBegin l = false ∧ matchesEnd l = false)
    (hpost : ∀ l ∈ post, matchesBegin l = false ∧ matchesEnd l = false)
    (hb : matchesBegin b = true)
    (heb : matchesBegin e = false) (he : matchesEnd e = true) :
    ∀ a, a ∈ (parseConfig (pre ++ b :: (mid ++ e :: post))).authorizedIps ↔
      a ∈ mid.filterMap allowIpOf := by
  intro a
  unfold parseConfig
  rw [List.foldl_append, foldl_scan_outside pre initState rfl hpre,
    List.foldl_cons, scanLine_begin initState b hb, List.foldl_append,
    foldl_scan_inside mid _ rfl hmid, List.foldl_cons]
  rw [scanLine_end _ e heb he]
  rw [foldl_scan_outside post _ rfl hpost]
  have hm := mem_foldl_pushIp mid ((initState.authorizedIps : List String)) a
  simpa [initState] using hm

/-- C3 witness: a region holding `Allow from 10.0.0.5` and a comment
yields exactly the address `10.0.0.5`. -/
theorem c3_extract_authorized_witness :
    ("10.0.0.5" ∈
        (parseConfig [beginScriptSection, "Allow from 10.0.0.5",
          "# comment", endScriptSection]).authorizedIps ↔
      "10.0.0.5" ∈
        (["Allow from 10.0.0.5", "# comment"].filterMap allowIpOf)) ∧
    (parseConfig [beginScriptSection, "Allow from 10.0.0.5",
      "# comment", endScriptSection]).authorizedIps = ["10.0.0.5"] :=
  ⟨c3_extract_authorized [] ["Allow from 10.0.0.5", "# comment"] []
      beginScriptSection endScriptSection (by decide) (by decide)
      (by decide) (by decide) (by decide) (by decide) "10.0.0.5",
    by decide⟩

/-- Every entry produced by the access-log loop was already in the
accumulator, or is the entry of the first log line carrying its
address (and its address was not yet accumulated). -/
theorem mem_foldl_processLog (ls : List String) :
    ∀ acc e, e ∈ ls.foldl processLogStep acc →
      e ∈ acc ∨
        ((acc.any (fun x => x.ip == e.ip)) = false ∧
          firstEntryWithIp ls e.ip = some e) := by
  induction ls with
  | nil => intro acc e he; exact Or.inl he
  | cons l t ih =>
    intro acc e he
    rw [List.foldl_cons] at he
    cases hp : parseAccess l with
    | none =>
      rw [processLogStep_none acc l hp] at he
      rcases ih acc e he with h | ⟨hany, hfirst⟩
      · exact Or.inl h
      · refine Or.inr ⟨hany, ?_⟩
        rw [firstEntryWithIp_cons, hp]
        exact hfirst
    | some en =>
      rw [processLogStep_some acc l en hp] at he
      by_cases hdup : acc.any (fun x => x.ip == en.ip)
      · rw [if_pos hdup] at he
        rcases ih acc e he with h | ⟨hany, hfirst⟩
        · exact Or.inl h
        · refine Or.inr ⟨hany, ?_⟩
          have hne : ¬ en.ip = e.ip := by
            intro hEq
            rw [hEq, hany] at hdup
            exact Bool.false_ne_true hdup
          rw [firstEntryWithIp_cons, hp]
          simpa [hne] using hfirst
      · rw [if_neg hdup] at he
        rcases ih (acc ++ [en]) e he with h | ⟨hany, hfirst⟩
        · rcases List.mem_append.mp h with h2 | h2
          · exact Or.inl h2
          · have heq : e = en := by simpa using h2
            subst heq
            refine Or.inr ⟨Bool.eq_false_iff.mpr hdup, ?_⟩
            rw [firstEntryWithIp_cons, hp]
            simp
        · rw [List.any_append] at hany
          have hanyAcc : acc.any (fun x => x.ip == e.ip) = false :=
            (Bool.or_eq_false_iff.mp hany).1
          have hne : ¬ en.ip = e.ip := by
            have h2 := (Bool.or_eq_false_iff.mp hany).2
            simpa using h2
          refine Or.inr ⟨hanyAcc, ?_⟩
          rw [firstEntryWithIp_cons, hp]
          simpa [hne] using hfirst

/-- The access-log loop never accumulates two entries with the same
address. -/
theorem nodup_foldl_processLog (ls : List String) :
    ∀ acc, (acc.map IpRequest.ip).Nodup →
      ((ls.foldl processLogStep acc).map IpRequest.ip).Nodup := by
  induction ls with
  | nil => intro acc h; exact h
  | cons l t ih =>
    intro acc h
    rw [List.foldl_cons]
    cases hp : parseAccess l with
    | none =>
      rw [processLogStep_none acc l hp]
      exact ih acc h
    | some en =>
      rw [processLogStep_some acc l en hp]
      by_cases hdup : acc.any (fun x => x.ip == en.ip)
      · rw [if_pos hdup]
        exact ih acc h
      · rw [if_neg hdup]
        refine ih (acc ++ [en]) ?_
        rw [List.map_append]
        rw [List.nodup_append]
        refine ⟨h, List.nodup_singleton _, ?_⟩
        intro x hx
        simp only [List.map_cons, List.map_nil, List.mem_singleton]
        intro hxip
        apply hdup
        rw [List.any_eq_true]
        rcases List.mem_map.mp hx with ⟨w, hw, hwip⟩
        exact ⟨w, hw, by rw [beq_iff_eq, hwip, hxip]⟩

/-- C6: an address already in the authorised set never appears among
the pending requests, however often it occurs in the log. -/
theorem c6_authorized_filtered_out (logLines auth : List String)
    (a : String) (ha : a ∈ auth) :
    ∀ e ∈ pendingEntries logLines auth, e.ip ≠ a := by
  intro e he
  have h := List.mem_filter.mp he
  intro hEq
  have : decide (e.ip ∈ auth) = false := by
    simpa using h.2
  rw [hEq] at this
  exact absurd ha (of_decide_eq_false this)

/-- C6 witness: with `9.9.9.9` authorised, the entry that survives
filtering on the example log has a different address. -/
theorem c6_authorized_filtered_out_witness :
    ("9.9.9.9" ∈ ["9.9.9.9"]) ∧
    (entry1234 ∈ pendingEntries [logLine1234] ["9.9.9.9"]) ∧
    entry1234.ip ≠ "9.9.9.9" :=
  ⟨by decide, by decide,
    c6_authorized_filtered_out [logLine1234] ["9.9.9.9"] "9.9.9.9"
      (by decide) entry1234 (by decide)⟩

/-- C7: the pending output holds at most one entry per distinct
address, and each of its entries is the one derived from the first
log line carrying that address. -/
theorem c7_dedup_first_occurrence_wins (logLines auth : List String) :
    ((pendingEntries logLines auth).map IpRequest.ip).Nodup ∧
    ∀ e ∈ pendingEntries logLines auth,
      firstEntryWithIp logLines e.ip = some e := by
  constructor
  · have hnodup : ((processLog logLines).map IpRequest.ip).Nodup :=
      nodup_foldl_processLog logLines [] (by simp)
    have hsub : List.Sublist (pendingEntries logLines auth)
        (processLog logLines) :=
      List.filter_sublist _
    exact List.Nodup.sublist (hsub.map IpRequest.ip) hnodup
  · intro e he
    have hmem : e ∈ processLog logLines :=
      List.mem_of_mem_filter he
    rcases mem_foldl_processLog logLines [] e hmem with h | ⟨_, hfirst⟩
    · exact absurd h (List.not_mem_nil e)
    · exact hfirst

/-- C7 witness: two log lines from `1.2.3.4` yield a single pending
entry, the one derived from the first line. -/
theorem c7_dedup_first_occurrence_wins_witness :
    (entry1234 ∈ pendingEntries [logLine1234, logLine1234b] []) ∧
    firstEntryWithIp [logLine1234, logLine1234b] entry1234.ip =
      some entry1234 :=
  ⟨by decide,
    (c7_dedup_first_occurrence_wins [logLine1234, logLine1234b] []).2
      entry1234 (by decide)⟩

/-- Folding string concatenation from an arbitrary seed. -/
theorem foldl_append_str (l : List String) :
    ∀ s : String,
      l.foldl (fun a b => a ++ b) s = s ++ l.foldl (fun a b => a ++ b) "" := by
  induction l with
  | nil => intro s; rw [List.foldl_nil, List.foldl_nil, String.append_empty]
  | cons x t ih =>
    intro s
    rw [List.foldl_cons, List.foldl_cons, ih (s ++ x), ih ("" ++ x),
      String.empty_append, String.append_assoc]

/-- `"".join` over a cons. -/
theorem joinAll_cons (x : String) (t : List String) :
    joinAll (x :: t) = x ++ joinAll t := by
  unfold joinAll
  rw [List.foldl_cons, foldl_append_str t ("" ++ x), String.empty_append]

/-- `"".join` distributes over list append. -/
theorem joinAll_append (l1 l2 : List String) :
    joinAll (l1 ++ l2) = joinAll l1 ++ joinAll l2 := by
  induction l1 with
  | nil =>
    rw [List.nil_append]
    exact (String.empty_append (joinAll l2)).symm
  | cons x t ih =>
    rw [List.cons_append, joinAll_cons, joinAll_cons, ih,
      String.append_assoc]

/-- Accumulating `acc ++ g e` over a list from an arbitrary seed. -/
theorem foldl_concat_map {α : Type} (g : α → String) (l : List α) :
    ∀ s : String,
      l.foldl (fun acc e => acc ++ g e) s = s ++ joinAll (l.map g) := by
  induction l with
  | nil => intro s; rw [List.foldl_nil, List.map_nil]; exact (String.append_empty s).symm
  | cons x t ih =>
    intro s
    rw [List.foldl_cons, ih, List.map_cons, joinAll_cons, String.append_assoc]

/-- The `newContent` string is the concatenation, over the entries, of
a newline followed by the comment line and the `Allow` line. -/
theorem newContentStr_eq (now : String) (entries : List IpRequest) :
    newContentStr now entries =
      joinAll (entries.map
        (fun e => "\n" ++ newLineComment now e ++ newAllowLine e)) := by
  unfold newContentStr
  rw [foldl_concat_map, String.empty_append]

/-- C2 (amended): the written file is the original lines up to the
insertion index, then — for each pending request — a blank line, the
comment line and the `Allow from` line (each block is preceded by one
blank line, not a bare two-line block), then the remaining original
lines; the insertion index is at least 1 and names the line matching
the end marker. -/
theorem c2_blocks_before_end_marker (configLines : List String)
    (now : String) (entries : List IpRequest) (i : Nat)
    (h : findInsertIndex configLines = some i) :
    writtenConfig configLines i now entries =
      joinAll (configLines.take i) ++
        joinAll (entries.map
          (fun e => "\n" ++ newLineComment now e ++ newAllowLine e)) ++
        joinAll (configLines.drop i) ∧
    1 ≤ i ∧ ∃ l, configLines[i]? = some l ∧ matchesEnd l = true := by
  constructor
  · unfold writtenConfig pyInsert
    rw [joinAll_append, joinAll_cons, newContentStr_eq,
      String.append_assoc]
  · obtain ⟨h1i, l, hget, hend⟩ :=
      findEndFrom_eq_some (configLines.drop 1) 1 i h
    refine ⟨h1i, l, ?_, hend⟩
    rw [List.getElem?_drop] at hget
    have h2 : 1 + (i - 1) = i := by omega
    rwa [h2] at hget

/-- C2 witness: the amended description instantiated on the four-line
example config with the single pending request from `9.9.9.9`. -/
theorem c2_blocks_before_end_marker_witness :
    findInsertIndex cfgC2 = some 2 ∧
    (writtenConfig cfgC2 2 nowStamp [entry9] =
        joinAll (cfgC2.take 2) ++
          joinAll ([entry9].map
            (fun e => "\n" ++ newLineComment nowStamp e ++ newAllowLine e)) ++
          joinAll (cfgC2.drop 2) ∧
      1 ≤ 2 ∧ ∃ l, cfgC2[2]? = some l ∧ matchesEnd l = true) :=
  ⟨by decide,
    c2_blocks_before_end_marker cfgC2 nowStamp [entry9] 2 (by decide)⟩

set_option maxRecDepth 16384 in
/-- C2 counterexample: on the end-to-end example the run inserts a
blank line before the comment/Allow pair, so the written content is
not the original lines with bare two-line blocks added: the claimed
two-line-block output differs from the actual output. -/
theorem c2_two_line_block_counterexample :
    run cfgC2 [logLine9] "y" nowStamp =
      RunOutcome.written (joinAll [cfgLine0, cfgLine1,
        "\n" ++ commentLine9 ++ "\n" ++ allowLine9 ++ "\n",
        cfgLine2, cfgLine3]) ∧
    joinAll [cfgLine0, cfgLine1,
        "\n" ++ commentLine9 ++ "\n" ++ allowLine9 ++ "\n",
        cfgLine2, cfgLine3] ≠
      joinAll [cfgLine0, cfgLine1,
        commentLine9 ++ "\n" ++ allowLine9 ++ "\n", cfgLine2, cfgLine3] := by
  decide

/-- C8: the confirmation accepts exactly `y` and `Y`; on any other
answer the run never reaches the write step and the config content is
left unchanged. -/
theorem c8_confirmation_gate :
    (∀ s : String, confirmAccepted s = true ↔ (s = "y" ∨ s = "Y")) ∧
    (∀ (configLines logLines : List String) (answer now original : String),
        confirmAccepted answer = false →
        finalConfig original (run configLines logLines answer now) =
          original) := by
  constructor
  · intro s
    simp [confirmAccepted]
  · intro configLines logLines answer now original h
    simp only [run]
    by_cases h1 : (parseConfig configLines).safety = 2
    · rw [if_pos h1]
      by_cases h2 : 0 <
          (pendingEntries logLines
            (parseConfig configLines).authorizedIps).length
      · rw [if_pos h2, h, if_neg Bool.false_ne_true]
        rfl
      · rw [if_neg h2]
        rfl
    · rw [if_neg h1]
      rfl

/-- C8 witness: answering `n` leaves the example config untouched. -/
theorem c8_confirmation_gate_witness :
    confirmAccepted "n" = false ∧
    finalConfig "ORIGINAL" (run cfgC2 [logLine9] "n" nowStamp) =
      "ORIGINAL" :=
  ⟨by decide,
    c8_confirmation_gate.2 cfgC2 [logLine9] "n" nowStamp "ORIGINAL"
      (by decide)⟩

/-- C9: when the filtered pending set is empty, the run stops with
`noNewRequests` — whatever the operator would have answered — and the
config content is unchanged. -/
theorem c9_no_pending_early_exit (configLines logLines : List String)
    (answer now original : String)
    (hsafety : (parseConfig configLines).safety = 2)
    (hempty :
      pendingEntries logLines (parseConfig configLines).authorizedIps
        = []) :
    run configLines logLines answer now = RunOutcome.noNewRequests ∧
    finalConfig original (run configLines logLines answer now) =
      original := by
  have hrun : run configLines logLines answer now =
      RunOutcome.noNewRequests := by
    simp only [run]
    rw [if_pos hsafety, hempty]
    rfl
  exact ⟨hrun, by rw [hrun]; rfl⟩

/-- C9 witness: an empty log against the example config exits with no
new requests and no change. -/
theorem c9_no_pending_early_exit_witness :
    (parseConfig cfgC2).safety = 2 ∧
    pendingEntries [] (parseConfig cfgC2).authorizedIps = [] ∧
    (run cfgC2 [] "y" nowStamp = RunOutcome.noNewRequests ∧
      finalConfig "ORIGINAL" (run cfgC2 [] "y" nowStamp) = "ORIGINAL") :=
  ⟨by decide, by decide,
    c9_no_pending_early_exit cfgC2 [] "y" nowStamp "ORIGINAL"
      (by decide) (by decide)⟩

end ApacheGrant
